import Mathlib

/-!
Verification development for the PacketMind proxy engine.

The Rust source (src-tauri/src/proxy.rs and its callers) is shallowly embedded:
pure string manipulation becomes functions on Lean strings and character
lists, the shared mutable server state becomes explicit state passing on a
ProxyServer record, the tokio effects (clock, uuid, forwarding) become
explicit parameters, and fallible operations return Except.  Machine bytes
(Rust u8) are modelled as Nat with explicit bounds where they matter.
-/

set_option maxRecDepth 8192

namespace PacketMind

/-- Model of the Rust str method contains with a string pattern: test for
a contiguous sublist of the underlying character list. -/
def rustContains (s sub : String) : Bool := decide (sub.data <:+: s.data)

/-- Model of the Rust str method starts_with: test that the pattern is an
initial segment of the underlying character list. -/
def rustStartsWith (s pre : String) : Bool := decide (pre.data <+: s.data)

/-- ASCII lowercase on one character; other characters are unchanged. -/
def asciiLowerChar (c : Char) : Char :=
  if 65 ≤ c.toNat ∧ c.toNat ≤ 90 then Char.ofNat (c.toNat + 32) else c

/-- Model of the Rust str method to_lowercase, restricted to the ASCII case
mapping (every string this development evaluates it on is ASCII; the Unicode
special cases of the Rust method are not modelled). -/
def rustToLower (s : String) : String := ⟨s.data.map asciiLowerChar⟩

/-- Model of url.split(pattern).next().unwrap_or(url) for a one-character
pattern: the characters before the first occurrence, the whole string when
the character does not occur. -/
def splitFirst (s : String) (c : Char) : String :=
  ⟨s.data.takeWhile (fun a => a ≠ c)⟩

/-- Index of the first occurrence of a pattern as a contiguous sublist
(model of the Rust str method find with a string pattern). -/
def findSubstrIdx : List Char → List Char → Option Nat
  | hay, pat =>
    if pat <+: hay then some 0
    else
      match hay with
      | [] => none
      | _ :: t => (findSubstrIdx t pat).map (· + 1)

/-- Index of the first occurrence of a character (model of the Rust str
method find with a char pattern). -/
def findCharIdx : List Char → Char → Option Nat
  | [], _ => none
  | a :: t, c => if a = c then some 0 else (findCharIdx t c).map (· + 1)

/-- ASCII letter test. -/
def isAlpha (c : Char) : Bool :=
  (65 ≤ c.toNat && c.toNat ≤ 90) || (97 ≤ c.toNat && c.toNat ≤ 122)

/-- Characters allowed in a URL scheme after the leading letter. -/
def isSchemeChar (c : Char) : Bool :=
  isAlpha c || (48 ≤ c.toNat && c.toNat ≤ 57) || c = '+' || c = '-' || c = '.'

/-- Model of host extraction through the third-party url crate
(url.Url.parse followed by host_str): on the shapes this program feeds it,
scheme://host[:port][/path][?query], it finds the scheme separator,
takes the authority up to a slash, question mark or hash, drops any
userinfo before the last at-sign and any port after a colon, and returns
the host lowercased; it returns none when there is no scheme separator,
the scheme is malformed, or the host is empty (the real parser then has no
host for the caller to use either). -/
def urlParseHost (url : String) : Option String :=
  match findSubstrIdx url.data ([':', '/', '/']) with
  | none => none
  | some i =>
    let scheme := url.data.take i
    let schemeOk := !scheme.isEmpty && scheme.all isSchemeChar &&
      (match scheme.head? with
       | some c => isAlpha c
       | none => false)
    if schemeOk then
      let afterScheme := url.data.drop (i + 3)
      let authority := afterScheme.takeWhile (fun c => c ≠ '/' && c ≠ '?' && c ≠ '#')
      let hostPort :=
        match findCharIdx authority.reverse '@' with
        | some j => authority.drop (authority.length - j)
        | none => authority
      let host := hostPort.takeWhile (fun c => c ≠ ':')
      if host.isEmpty then none else some ⟨host.map asciiLowerChar⟩
    else none

/-- Embedding of ProxyServer.extract_domain_from_url: the CONNECT shape
host:port is split at the first colon; otherwise a URL parse is attempted
and its host returned; otherwise an http(s) URL is scanned manually after
the scheme separator; any other string is returned unchanged. -/
def extract_domain_from_url (url : String) : String :=
  if rustContains url ":" && !(rustStartsWith url "http") then
    splitFirst url ':'
  else
    match urlParseHost url with
    | some host => host
    | none =>
      if rustStartsWith url "http://" || rustStartsWith url "https://" then
        match findSubstrIdx url.data ([':', '/', '/']) with
        | some start =>
          let afterProtocol := url.data.drop (start + 3)
          match findCharIdx afterProtocol '/' with
          | some e => ⟨afterProtocol.take e⟩
          | none =>
            match findCharIdx afterProtocol ':' with
            | some e => ⟨afterProtocol.take e⟩
            | none => ⟨afterProtocol⟩
        | none => url
      else url

/-- Model of chrono.DateTime of Utc: the program only ever stores
timestamps and renders them with to_rfc3339, so a timestamp is modelled by
that rendering. -/
structure Timestamp where
  rfc3339 : String
deriving DecidableEq

/-- Embedding of the HttpRequest record.  The header HashMap is modelled
as an association list (its iteration order plays no part in any claim);
the body bytes are Nat values below 256. -/
structure HttpRequest where
  method : String
  url : String
  headers : List (String × String)
  body : List Nat
  timestamp : Timestamp
deriving DecidableEq

/-- Embedding of the HttpResponse record. -/
structure HttpResponse where
  status : Nat
  headers : List (String × String)
  body : List Nat
  timestamp : Timestamp
deriving DecidableEq

/-- Embedding of the HttpTransaction record; duration is modelled in
nanoseconds. -/
structure HttpTransaction where
  id : String
  request : HttpRequest
  response : Option HttpResponse
  duration : Option Nat
  is_favorite : Bool
  tags : List String
deriving DecidableEq

/-- Embedding of the RuleAction enum, with its four variants. -/
inductive RuleAction where
  | Block : RuleAction
  | Redirect (target : String) : RuleAction
  | Rewrite (script : String) : RuleAction
  | Mock (response : String) : RuleAction
deriving DecidableEq

/-- Embedding of the RequestRule record.  Its fields are exactly those of
the source struct: id, name, pattern, action, enabled.  The source struct
has no priority field. -/
structure RequestRule where
  id : String
  name : String
  pattern : String
  action : RuleAction
  enabled : Bool
deriving DecidableEq

/-- Embedding of the ProxyServer state: the five RwLock-guarded fields
become plain fields and every method becomes explicit state passing. -/
structure ProxyServer where
  port : Nat
  transactions : List HttpTransaction
  filters : List String
  rules : List RequestRule
  favorites : List String
  is_running : Bool
deriving DecidableEq

/-- Embedding of ProxyServer.new. -/
def ProxyServer.new (port : Nat) : ProxyServer :=
  { port := port, transactions := [], filters := [], rules := [],
    favorites := [], is_running := false }

/-- Embedding of ProxyServer.add_rule: the rule is pushed onto the end of
the rule vector; nothing is sorted. -/
def ProxyServer.add_rule (s : ProxyServer) (rule : RequestRule) : ProxyServer :=
  { s with rules := s.rules ++ [rule] }

/-- Embedding of ProxyServer.remove_rule: retain the rules whose id
differs. -/
def ProxyServer.remove_rule (s : ProxyServer) (rule_id : String) : ProxyServer :=
  { s with rules := s.rules.filter (fun r => r.id ≠ rule_id) }

/-- Embedding of ProxyServer.get_rules: a snapshot of the rule vector as
stored. -/
def ProxyServer.get_rules (s : ProxyServer) : List RequestRule := s.rules

/-- Embedding of ProxyServer.get_transactions. -/
def ProxyServer.get_transactions (s : ProxyServer) : List HttpTransaction :=
  s.transactions

/-- Embedding of the loop body of ProxyServer.toggle_favorite on the bare
transaction list: find the first transaction with the given id, negate its
favorite flag and return the new value; return false and leave the list
unchanged when no transaction matches. -/
def toggleFavoriteList : List HttpTransaction → String → Bool × List HttpTransaction
  | [], _ => (false, [])
  | t :: ts, tid =>
    if t.id = tid then
      (!t.is_favorite, { t with is_favorite := !t.is_favorite } :: ts)
    else
      let r := toggleFavoriteList ts tid
      (r.1, t :: r.2)

/-- Embedding of ProxyServer.toggle_favorite. -/
def ProxyServer.toggle_favorite (s : ProxyServer) (transaction_id : String) :
    Bool × ProxyServer :=
  let r := toggleFavoriteList s.transactions transaction_id
  (r.1, { s with transactions := r.2 })

/-- Embedding of ProxyServer.stop: the write of false to the running flag
(the system-proxy restore that follows is an external OS side effect
outside the model). -/
def ProxyServer.stop (s : ProxyServer) : ProxyServer := { s with is_running := false }

/-- The only server-state change ProxyServer.start performs: the write of
true to the running flag after a successful bind. -/
def ProxyServer.startFlag (s : ProxyServer) : ProxyServer := { s with is_running := true }

/-- Continuation guard of the accept loop inside ProxyServer.start.  The
source loops with the unconditional loop keyword and never reads
is_running inside the loop, so the acceptor keeps accepting whatever the
server state is; its guard is the constant true. -/
def acceptLoopGuard (_s : ProxyServer) : Bool := true

/-- Hexadecimal digit character used by JSON escapes. -/
def hexDigit (n : Nat) : Char :=
  if n < 10 then Char.ofNat (48 + n) else Char.ofNat (97 + n - 10)

/-- JSON escaping of one character as serde_json renders strings. -/
def jsonEscapeChar (c : Char) : List Char :=
  if c = '"' then ['\\', '"']
  else if c = '\\' then ['\\', '\\']
  else if c.toNat = 8 then ['\\', 'b']
  else if c.toNat = 9 then ['\\', 't']
  else if c.toNat = 10 then ['\\', 'n']
  else if c.toNat = 12 then ['\\', 'f']
  else if c.toNat = 13 then ['\\', 'r']
  else if c.toNat < 32 then ['\\', 'u', '0', '0', hexDigit (c.toNat / 16), hexDigit (c.toNat % 16)]
  else [c]

/-- A JSON string literal for the given text. -/
def jsonString (s : String) : String :=
  ⟨('"' :: s.data.flatMap jsonEscapeChar) ++ ['"']⟩

/-- UTF-8 bytes of one character (the four-range encoding). -/
def utf8EncodeCharNat (c : Char) : List Nat :=
  let v := c.toNat
  if v ≤ 0x7F then [v]
  else if v ≤ 0x7FF then [0xC0 + v / 64, 0x80 + v % 64]
  else if v ≤ 0xFFFF then [0xE0 + v / 4096, 0x80 + v / 64 % 64, 0x80 + v % 64]
  else [0xF0 + v / 262144, 0x80 + v / 4096 % 64, 0x80 + v / 64 % 64, 0x80 + v % 64]

/-- Model of the Rust as_bytes and into_bytes methods: the UTF-8 byte
sequence of a string. -/
def utf8Bytes (s : String) : List Nat := s.data.flatMap utf8EncodeCharNat

/-- Body text of the synthesized forwarding response: the serde_json value
built in forward_request, rendered compactly.  serde_json object keys
appear in sorted order (its object is a BTreeMap), hence message,
original_request with method, timestamp, url, then proxy_info with
features, version.  The two adjacent clock reads of the source are
modelled as the single instant now. -/
def forwardBody (request : HttpRequest) (now : Timestamp) : String :=
  "\x7b\"message\":\"Proxied by PacketMind AI\",\"original_request\":\x7b\"method\":"
    ++ jsonString request.method
    ++ ",\"timestamp\":" ++ jsonString now.rfc3339
    ++ ",\"url\":" ++ jsonString request.url
    ++ "\x7d,\"proxy_info\":\x7b\"features\":[\"auto_proxy\",\"ai_analysis\",\"filtering\"],\"version\":\"1.0.0\"\x7d\x7d"

/-- Status portion of forward_request: the match on the request method. -/
def statusForMethod (method : String) : Nat :=
  if method = "GET" then 200
  else if method = "POST" then 201
  else if method = "PUT" then 200
  else if method = "DELETE" then 204
  else 200

/-- Embedding of ProxyServer.forward_request: the simplified forwarding
stub that always succeeds with a synthesized response; the chrono clock is
the explicit argument now. -/
def forward_request (request : HttpRequest) (now : Timestamp) : Except String HttpResponse :=
  .ok {
    status := statusForMethod request.method
    headers := [("Content-Type", "application/json"), ("X-Proxy-By", "PacketMind AI")]
    body := utf8Bytes (forwardBody request now)
    timestamp := now
  }

/-- The hyper Response with a String body built at the end of
handle_request.  The body is kept as the UTF-8 bytes of the recorded
response body; the source converts them with from_utf8_lossy, which is a
lossless re-encoding on the valid UTF-8 bodies this program produces. -/
structure WireResponse where
  status : Nat
  headers : List (String × String)
  bodyBytes : List Nat
deriving DecidableEq

/-- Model of StatusCode.from_u16 with unwrap_or(StatusCode.OK): hyper
accepts the codes 100 to 599 and everything else falls back to 200. -/
def wireStatus (status : Nat) : Nat :=
  if 100 ≤ status ∧ status ≤ 599 then status else 200

/-- One filter against one URL, as tested inside the any closure of
handle_request: a case-insensitive substring match against the extracted
domain or against the full URL. -/
def filterMatches (filter url : String) : Bool :=
  let domain := extract_domain_from_url url
  rustContains (rustToLower domain) (rustToLower filter) ||
    rustContains (rustToLower url) (rustToLower filter)

/-- The is_filtered computation at the top of handle_request. -/
def isFilteredCalc (filters : List String) (url : String) : Bool :=
  if filters.isEmpty then false
  else filters.any (fun filter => filterMatches filter url)

/-- Embedding of handle_request, abstracted over the forwarding function so
that its error branch can be examined (in the source the call is to
forward_request, which never fails; see the C9 theorem).  The effects are
explicit arguments: newId is the generated uuid, now the chrono clock,
elapsed the measured duration.  The request body read is the placeholder
empty vector of the source.  Returned are the transaction list with the
one new transaction appended, and the wire response handed back to hyper.
The source never reads the rule list here: rules are not an input of the
handler at all. -/
def handleRequestWith (fwd : HttpRequest → Timestamp → Except String HttpResponse)
    (newId : String) (now : Timestamp) (elapsed : Nat)
    (method url : String) (reqHeaders : List (String × String))
    (transactions : List HttpTransaction) (filters : List String) :
    List HttpTransaction × WireResponse :=
  let is_filtered := isFilteredCalc filters url
  let request : HttpRequest :=
    { method := method, url := url, headers := reqHeaders, body := [], timestamp := now }
  let response : HttpResponse :=
    match fwd request now with
    | .ok resp => resp
    | .error e =>
      { status := 502, headers := [], body := utf8Bytes ("Proxy error: " ++ e),
        timestamp := now }
  let tags : List String := if is_filtered then ["filtered"] else []
  let transaction : HttpTransaction :=
    { id := newId, request := request, response := some response,
      duration := some elapsed, is_favorite := false, tags := tags }
  (transactions ++ [transaction],
   { status := wireStatus response.status, headers := response.headers,
     bodyBytes := response.body })

/-- Embedding of handle_request exactly as the source instantiates it: the
forwarding function is forward_request. -/
def handle_request (newId : String) (now : Timestamp) (elapsed : Nat)
    (method url : String) (reqHeaders : List (String × String))
    (transactions : List HttpTransaction) (filters : List String) :
    List HttpTransaction × WireResponse :=
  handleRequestWith forward_request newId now elapsed method url reqHeaders
    transactions filters

/-- Modelled from the spec: the source contains no rule pattern matching
anywhere (handle_request never reads the rule list), so to state claim C1
the pattern test of spec section 4.3 is modelled here: a pattern that is
not slash-delimited is a plain case-sensitive substring test against the
full URL. -/
def specRulePatternMatches (pattern url : String) : Bool := rustContains url pattern

/-- Byte of the standard base64 alphabet for a sextet value below 64.
Model of the alphabet used by the base64 crate engine
general_purpose.STANDARD. -/
def b64ByteOfSextet (k : Nat) : Nat :=
  if k < 26 then 65 + k
  else if k < 52 then 97 + (k - 26)
  else if k < 62 then 48 + (k - 52)
  else if k = 62 then 43
  else 47

/-- Inverse alphabet lookup: the sextet value of a base64 byte, none for a
byte outside the alphabet (the pad byte 61 included). -/
def sextetOfB64Byte (b : Nat) : Option Nat :=
  if 65 ≤ b ∧ b ≤ 90 then some (b - 65)
  else if 97 ≤ b ∧ b ≤ 122 then some (b - 97 + 26)
  else if 48 ≤ b ∧ b ≤ 57 then some (b - 48 + 52)
  else if b = 43 then some 62
  else if b = 47 then some 63
  else none

/-- Model of base64 encoding with the STANDARD engine of the base64 crate:
three input bytes become four alphabet bytes, a final group of one or two
bytes is padded with the pad byte 61. -/
def b64EncodeBytes : List Nat → List Nat
  | [] => []
  | [a] => [b64ByteOfSextet (a / 4), b64ByteOfSextet (a % 4 * 16), 61, 61]
  | [a, b] =>
    [b64ByteOfSextet (a / 4), b64ByteOfSextet (a % 4 * 16 + b / 16),
     b64ByteOfSextet (b % 16 * 4), 61]
  | a :: b :: c :: rest =>
    [b64ByteOfSextet (a / 4), b64ByteOfSextet (a % 4 * 16 + b / 16),
     b64ByteOfSextet (b % 16 * 4 + c / 64), b64ByteOfSextet (c % 64)]
      ++ b64EncodeBytes rest

/-- Model of base64 decoding with the STANDARD engine of the base64 crate:
strict four-byte groups, canonical padding required only in the final
group, trailing sextet bits must be zero, any byte outside the alphabet is
an error. -/
def b64DecodeBytes : List Nat → Except String (List Nat)
  | [] => .ok []
  | c0 :: c1 :: c2 :: c3 :: rest =>
    match sextetOfB64Byte c0, sextetOfB64Byte c1 with
    | some s0, some s1 =>
      if c2 = 61 then
        if c3 = 61 ∧ rest = [] ∧ s1 % 16 = 0 then .ok [s0 * 4 + s1 / 16]
        else .error "Invalid padding"
      else
        match sextetOfB64Byte c2 with
        | some s2 =>
          if c3 = 61 then
            if rest = [] ∧ s2 % 4 = 0 then .ok [s0 * 4 + s1 / 16, s1 % 16 * 16 + s2 / 4]
            else .error "Invalid padding"
          else
            match sextetOfB64Byte c3 with
            | some s3 =>
              match b64DecodeBytes rest with
              | .ok tail =>
                .ok ([s0 * 4 + s1 / 16, s1 % 16 * 16 + s2 / 4, s2 % 4 * 64 + s3] ++ tail)
              | .error e => .error e
            | none => .error "Invalid symbol"
        | none => .error "Invalid symbol"
    | _, _ => .error "Invalid symbol"
  | _ => .error "Invalid input length"

/-- Continuation byte test of UTF-8. -/
def isCont (b : Nat) : Bool := 0x80 ≤ b ∧ b ≤ 0xBF

/-- Model of the UTF-8 validity check performed by the Rust standard
library in String.from_utf8: the shortest-form ranges of RFC 3629,
rejecting overlong encodings and surrogate code points. -/
def isValidUtf8 : List Nat → Bool
  | [] => true
  | b0 :: t =>
    if b0 ≤ 0x7F then isValidUtf8 t
    else
      match t with
      | b1 :: t1 =>
        if 0xC2 ≤ b0 ∧ b0 ≤ 0xDF then isCont b1 && isValidUtf8 t1
        else
          match t1 with
          | b2 :: t2 =>
            if b0 = 0xE0 then decide (0xA0 ≤ b1 ∧ b1 ≤ 0xBF) && isCont b2 && isValidUtf8 t2
            else if 0xE1 ≤ b0 ∧ b0 ≤ 0xEC then isCont b1 && isCont b2 && isValidUtf8 t2
            else if b0 = 0xED then decide (0x80 ≤ b1 ∧ b1 ≤ 0x9F) && isCont b2 && isValidUtf8 t2
            else if 0xEE ≤ b0 ∧ b0 ≤ 0xEF then isCont b1 && isCont b2 && isValidUtf8 t2
            else
              match t2 with
              | b3 :: t3 =>
                if b0 = 0xF0 then
                  decide (0x90 ≤ b1 ∧ b1 ≤ 0xBF) && isCont b2 && isCont b3 && isValidUtf8 t3
                else if 0xF1 ≤ b0 ∧ b0 ≤ 0xF3 then
                  isCont b1 && isCont b2 && isCont b3 && isValidUtf8 t3
                else if b0 = 0xF4 then
                  decide (0x80 ≤ b1 ∧ b1 ≤ 0x8F) && isCont b2 && isCont b3 && isValidUtf8 t3
                else false
              | [] => false
          | [] => false
      | [] => false

/-- Model of the Rust String.from_utf8 constructor on the byte-sequence
representation of strings: the bytes themselves when they are valid UTF-8,
an error otherwise. -/
def string_from_utf8 (bytes : List Nat) : Except String (List Nat) :=
  if isValidUtf8 bytes then .ok bytes else .error "invalid utf-8 sequence"

/-- Embedding of ProxyServer.encode_base64.  In this encoding section a
Rust string is modelled by its UTF-8 byte sequence, matching the source,
which immediately takes as_bytes of its input. -/
def encode_base64 (input : List Nat) : List Nat := b64EncodeBytes input

/-- Embedding of ProxyServer.decode_base64: base64-decode the input bytes,
then validate the decoded bytes as UTF-8; either step can fail. -/
def decode_base64 (input : List Nat) : Except String (List Nat) :=
  match b64DecodeBytes input with
  | .ok decoded => string_from_utf8 decoded
  | .error e => .error e

/-- Rule named five, echoing the first rule of the spec example with
priorities five, ten, one (the source RequestRule has no priority field to
carry the number itself). -/
def ruleFive : RequestRule :=
  { id := "rule-5", name := "five", pattern := "a", action := RuleAction.Block, enabled := true }

/-- Rule named ten of the spec example. -/
def ruleTen : RequestRule :=
  { id := "rule-10", name := "ten", pattern := "b", action := RuleAction.Block, enabled := true }

/-- Rule named one of the spec example. -/
def ruleOne : RequestRule :=
  { id := "rule-1", name := "one", pattern := "c", action := RuleAction.Block, enabled := true }

/-- Concrete transaction with id a, used by concrete instantiations. -/
def txA : HttpTransaction :=
  { id := "a",
    request := { method := "GET", url := "http://one.example/", headers := [],
                 body := [], timestamp := ⟨"2026-01-01T00:00:00+00:00"⟩ },
    response := none, duration := none, is_favorite := false, tags := [] }

/-- Concrete transaction with id b, used by concrete instantiations. -/
def txB : HttpTransaction :=
  { id := "b",
    request := { method := "POST", url := "http://two.example/", headers := [],
                 body := [], timestamp := ⟨"2026-01-01T00:00:01+00:00"⟩ },
    response := none, duration := some 9, is_favorite := true, tags := ["filtered"] }

/-- Enabled Block rule whose pattern occurs in the URL of the C1 failing
input. -/
def blockRule : RequestRule :=
  { id := "r1", name := "block example", pattern := "blocked.example",
    action := RuleAction.Block, enabled := true }

/-- Alphabet lookup inverts the alphabet on every sextet value. -/
theorem sextet_round : ∀ k < 64, sextetOfB64Byte (b64ByteOfSextet k) = some k := by decide

/-- No alphabet byte is the pad byte. -/
theorem b64Byte_ne_pad : ∀ k < 64, b64ByteOfSextet k ≠ 61 := by decide

/-- Base64 decoding inverts base64 encoding on every byte sequence. -/
theorem b64_decode_encode (bs : List Nat) (h : ∀ b ∈ bs, b < 256) :
    b64DecodeBytes (b64EncodeBytes bs) = .ok bs := by
  induction bs using b64EncodeBytes.induct with
  | case1 => rfl
  | case2 a =>
    have ha : a < 256 := h a (by simp)
    have h0 := sextet_round (a / 4) (by omega)
    have h1 := sextet_round (a % 4 * 16) (by omega)
    have hz : a % 4 * 16 % 16 = 0 := by omega
    simp [b64EncodeBytes, b64DecodeBytes, h0, h1, hz]
    omega
  | case3 a b =>
    have ha : a < 256 := h a (by simp)
    have hb : b < 256 := h b (by simp)
    have h0 := sextet_round (a / 4) (by omega)
    have h1 := sextet_round (a % 4 * 16 + b / 16) (by omega)
    have h2 := sextet_round (b % 16 * 4) (by omega)
    have n1 := b64Byte_ne_pad (b % 16 * 4) (by omega)
    have hz : b % 16 * 4 % 4 = 0 := by omega
    simp [b64EncodeBytes, b64DecodeBytes, h0, h1, h2, n1, hz]
    constructor <;> omega
  | case4 a b c rest ih =>
    have ha : a < 256 := h a (by simp)
    have hb : b < 256 := h b (by simp)
    have hc : c < 256 := h c (by simp)
    have h0 := sextet_round (a / 4) (by omega)
    have h1 := sextet_round (a % 4 * 16 + b / 16) (by omega)
    have h2 := sextet_round (b % 16 * 4 + c / 64) (by omega)
    have h3 := sextet_round (c % 64) (by omega)
    have n2 := b64Byte_ne_pad (b % 16 * 4 + c / 64) (by omega)
    have n3 := b64Byte_ne_pad (c % 64) (by omega)
    have ht := ih (fun x hx => h x (by simp [hx]))
    have e1 : a / 4 * 4 + (a % 4 * 16 + b / 16) / 16 = a := by omega
    have e2 : (a % 4 * 16 + b / 16) % 16 * 16 + (b % 16 * 4 + c / 64) / 4 = b := by omega
    have e3 : (b % 16 * 4 + c / 64) % 4 * 64 + c % 64 = c := by omega
    simp [b64EncodeBytes, b64DecodeBytes, h0, h1, h2, h3, n2, n3, ht, e1, e2, e3]

/-- Claim C8: for every string s (the strings being modelled by their UTF-8
byte sequences, covering the empty string and non-ASCII text),
decode_base64 applied to encode_base64 of s succeeds and returns s; and
decode_base64 applied to the non-base64 string "not base64!!" returns a
decode error rather than succeeding. -/
theorem C8_base64_roundtrip :
    (∀ s : List Nat, (∀ b ∈ s, b < 256) → isValidUtf8 s = true →
      decode_base64 (encode_base64 s) = .ok s)
    ∧ decode_base64 (utf8Bytes "not base64!!") = .error "Invalid symbol" := by
  constructor
  · intro s hb hv
    unfold decode_base64 encode_base64
    rw [b64_decode_encode s hb]
    simp [string_from_utf8, hv]
  · rfl

/-- Witness for C8 at the concrete non-ASCII string héllo. -/
theorem C8_base64_roundtrip_witness :
    decode_base64 (encode_base64 (utf8Bytes "héllo")) = .ok (utf8Bytes "héllo") :=
  C8_base64_roundtrip.1 (utf8Bytes "héllo") (by decide) (by rfl)

/-- Claim C7: domain extraction is total (its Lean type is a total function
on strings) and on the three claimed inputs: the URI of a CONNECT request,
which hyper presents in authority form host:port, yields the host; an
absolute https URL yields its host; a bare malformed string is returned
unchanged. -/
theorem C7_domain_extraction :
    extract_domain_from_url "www.example.com:443" = "www.example.com"
    ∧ extract_domain_from_url "https://api.example.com/v1/users?x=1" = "api.example.com"
    ∧ extract_domain_from_url "garbage" = "garbage" :=
  ⟨by rfl, by rfl, by rfl⟩

/-- Claim C2 is false of the code: add_rule appends to the end of the rule
vector and nothing ever sorts it (RequestRule does not even carry a
priority), so get_rules returns insertion order; inserting the rules of
the spec example in the order five, ten, one yields exactly that insertion
order back, not a priority-descending reordering. -/
theorem C2_rules_insertion_order :
    (∀ (s : ProxyServer) (r : RequestRule), (s.add_rule r).get_rules = s.get_rules ++ [r])
    ∧ ProxyServer.get_rules
        (((ProxyServer.new 8080).add_rule ruleFive).add_rule ruleTen |>.add_rule ruleOne)
        = [ruleFive, ruleTen, ruleOne] :=
  ⟨fun _ _ => rfl, by rfl⟩

/-- Claim C3 is false of the code in its acceptor half: stop does set the
running flag to false (so is_running reports false afterwards), but the
accept loop of start never reads that flag and its continuation guard is
constantly true, so the acceptor does not cease accepting new
connections. -/
theorem C3_stop_flag_only :
    ∀ s : ProxyServer,
      (s.stop).is_running = false
      ∧ acceptLoopGuard s.stop = true
      ∧ acceptLoopGuard ((ProxyServer.new 8080).startFlag.stop) = true :=
  fun _ => ⟨rfl, rfl, rfl⟩

/-- Claim C6: for an id present in the store, two consecutive
toggle_favorite calls return complementary booleans and restore the store
exactly; for an id never appended, toggle_favorite returns false and
leaves the store unchanged. -/
theorem C6_toggle_involution (transactions : List HttpTransaction) (tid : String) :
    (tid ∈ transactions.map HttpTransaction.id →
      (toggleFavoriteList (toggleFavoriteList transactions tid).2 tid).1
          = !(toggleFavoriteList transactions tid).1
        ∧ (toggleFavoriteList (toggleFavoriteList transactions tid).2 tid).2 = transactions)
    ∧ (tid ∉ transactions.map HttpTransaction.id →
        toggleFavoriteList transactions tid = (false, transactions)) := by
  induction transactions with
  | nil => exact ⟨fun h => absurd h (by simp), fun _ => rfl⟩
  | cons t ts ih =>
    constructor
    · intro hmem
      by_cases hid : t.id = tid
      · simp only [toggleFavoriteList, if_pos hid]
        refine ⟨by trivial, ?_⟩
        rw [Bool.not_not]
      · have hmem2 : tid ∈ ts.map HttpTransaction.id := by
          have hsplit : tid = t.id ∨ ∃ a ∈ ts, a.id = tid := by simpa using hmem
          rcases hsplit with h | ⟨a, ha, haid⟩
          · exact absurd h.symm hid
          · exact List.mem_map.mpr ⟨a, ha, haid⟩
        simp only [toggleFavoriteList, if_neg hid]
        exact ⟨(ih.1 hmem2).1, by rw [(ih.1 hmem2).2]⟩
    · intro hnm
      simp only [List.map_cons, List.mem_cons, not_or] at hnm
      have hid : ¬ t.id = tid := fun h => hnm.1 h.symm
      have hrec := ih.2 hnm.2
      simp only [toggleFavoriteList, if_neg hid, hrec]

/-- Witness for C6 at a concrete two-element store: the id a is present,
the id zzz never appended. -/
theorem C6_toggle_involution_witness :
    ((toggleFavoriteList (toggleFavoriteList [txA, txB] "a").2 "a").1
        = !(toggleFavoriteList [txA, txB] "a").1
      ∧ (toggleFavoriteList (toggleFavoriteList [txA, txB] "a").2 "a").2 = [txA, txB])
    ∧ toggleFavoriteList [txA, txB] "zzz" = (false, [txA, txB]) :=
  ⟨(C6_toggle_involution [txA, txB] "a").1 (by decide),
   (C6_toggle_involution [txA, txB] "zzz").2 (by decide)⟩

/-- Claim C10: toggling an id whose first occurrence is the transaction t
rewrites exactly that transaction, flipping only its favorite flag: every
transaction before and after it is untouched, the order is untouched, and
the rewritten transaction keeps its id, request, response, duration and
tags. -/
theorem C10_toggle_frame (pre post : List HttpTransaction) (t : HttpTransaction)
    (tid : String) (hpre : ∀ u ∈ pre, u.id ≠ tid) (ht : t.id = tid) :
    toggleFavoriteList (pre ++ t :: post) tid
      = (!t.is_favorite, pre ++ { t with is_favorite := !t.is_favorite } :: post)
    ∧ ({ t with is_favorite := !t.is_favorite }).id = t.id
    ∧ ({ t with is_favorite := !t.is_favorite }).request = t.request
    ∧ ({ t with is_favorite := !t.is_favorite }).response = t.response
    ∧ ({ t with is_favorite := !t.is_favorite }).duration = t.duration
    ∧ ({ t with is_favorite := !t.is_favorite }).tags = t.tags := by
  refine ⟨?_, rfl, rfl, rfl, rfl, rfl⟩
  induction pre with
  | nil => simp [toggleFavoriteList, ht]
  | cons u us ih =>
    have hu : ¬ u.id = tid := hpre u (by simp)
    simp only [List.cons_append, toggleFavoriteList, if_neg hu]
    rw [show us.append (t :: post) = us ++ t :: post from rfl,
      ih (fun v hv => hpre v (by simp [hv]))]

/-- Witness for C10 at a concrete store whose first element does not carry
the toggled id. -/
theorem C10_toggle_frame_witness :
    toggleFavoriteList ([txB] ++ txA :: []) "a"
      = (!txA.is_favorite, [txB] ++ { txA with is_favorite := !txA.is_favorite } :: []) :=
  (C10_toggle_frame [txB] [] txA "a" (by decide) rfl).1

/-- The is_filtered boolean of the handler holds exactly when the filter
list is non-empty and some filter matches case-insensitively the extracted
domain or the full URL. -/
theorem isFilteredCalc_iff (filters : List String) (url : String) :
    isFilteredCalc filters url = true ↔
      (filters ≠ [] ∧ ∃ f ∈ filters,
        (rustContains (rustToLower (extract_domain_from_url url)) (rustToLower f)
          ∨ rustContains (rustToLower url) (rustToLower f))) := by
  unfold isFilteredCalc filterMatches
  rcases filters with _ | ⟨g, gs⟩
  · simp
  · simp [List.any_eq_true, Bool.or_eq_true]

/-- Claim C1 is false of the code: handle_request takes only the
transaction store and the filter list and never reads the rule list, so
even with an enabled Block rule whose pattern matches the URL (substring
match per the spec) the default forwarding path runs: the synthesized
success response of forward_request is recorded and returned with status
200, instead of a rule-determined refusal that contacts no upstream. -/
theorem C1_rules_never_consulted :
    blockRule.enabled = true
    ∧ specRulePatternMatches blockRule.pattern "http://blocked.example/x" = true
    ∧ (∃ resp : HttpResponse,
        forward_request
            { method := "GET", url := "http://blocked.example/x", headers := [],
              body := [], timestamp := ⟨"t1"⟩ } ⟨"t1"⟩ = .ok resp
        ∧ resp.status = 200
        ∧ (handle_request "id1" ⟨"t1"⟩ 5 "GET" "http://blocked.example/x" [] [] []).1
            = [{ id := "id1",
                 request := { method := "GET", url := "http://blocked.example/x",
                              headers := [], body := [], timestamp := ⟨"t1"⟩ },
                 response := some resp, duration := some 5, is_favorite := false,
                 tags := [] }]
        ∧ (handle_request "id1" ⟨"t1"⟩ 5 "GET" "http://blocked.example/x" [] [] []).2.status
            = 200) := by
  refine ⟨rfl, by rfl, _, rfl, rfl, ?_, ?_⟩ <;> rfl

/-- Claim C4: every request is recorded as exactly one appended
transaction that carries the tag filtered exactly when the filter list is
non-empty and some filter is a case-insensitive substring of the extracted
domain or of the full URL; in every case the request still takes the
normal forward path: the recorded response is the forwarding response and
the wire response is built from it, never dropped. -/
theorem C4_filter_tagging :
    ∀ (newId : String) (now : Timestamp) (elapsed : Nat) (method url : String)
      (reqHeaders : List (String × String)) (transactions : List HttpTransaction)
      (filters : List String),
      ∃ tx resp,
        handle_request newId now elapsed method url reqHeaders transactions filters
          = (transactions ++ [tx],
             { status := wireStatus resp.status, headers := resp.headers,
               bodyBytes := resp.body })
        ∧ forward_request
            { method := method, url := url, headers := reqHeaders, body := [],
              timestamp := now } now = .ok resp
        ∧ tx.response = some resp
        ∧ (("filtered" ∈ tx.tags) ↔
            (filters ≠ [] ∧ ∃ f ∈ filters,
              (rustContains (rustToLower (extract_domain_from_url url)) (rustToLower f)
                ∨ rustContains (rustToLower url) (rustToLower f)))) := by
  intro newId now elapsed method url reqHeaders transactions filters
  refine ⟨_, _, rfl, rfl, rfl, ?_⟩
  have hiff := isFilteredCalc_iff filters url
  by_cases hb : isFilteredCalc filters url = true
  · simp only [hb, if_pos rfl]
    simpa using hiff.mp hb
  · rw [if_neg (by simpa using hb)]
    simp only [List.not_mem_nil, false_iff]
    exact fun hr => hb (hiff.mpr hr)

/-- Claim C5: for every request, over an arbitrary forwarding outcome, the
handler appends exactly one transaction to the store and returns the wire
response built from the very response it recorded; and whenever forwarding
fails with an error e, the recorded and returned response is the
synthesized gateway error, status 502 with the body Proxy error followed
by the message, rather than a propagated transport failure. -/
theorem C5_one_transaction_even_on_error :
    ∀ (fwd : HttpRequest → Timestamp → Except String HttpResponse)
      (newId : String) (now : Timestamp) (elapsed : Nat) (method url : String)
      (reqHeaders : List (String × String)) (transactions : List HttpTransaction)
      (filters : List String),
      (∃ tx resp,
        handleRequestWith fwd newId now elapsed method url reqHeaders transactions
            filters
          = (transactions ++ [tx],
             { status := wireStatus resp.status, headers := resp.headers,
               bodyBytes := resp.body })
        ∧ tx.response = some resp)
      ∧ (∀ e : String,
          fwd { method := method, url := url, headers := reqHeaders, body := [],
                timestamp := now } now = .error e →
          ∃ tx,
            handleRequestWith fwd newId now elapsed method url reqHeaders
                transactions filters
              = (transactions ++ [tx],
                 { status := 502, headers := [],
                   bodyBytes := utf8Bytes ("Proxy error: " ++ e) })
            ∧ tx.response = some { status := 502, headers := [],
                                   body := utf8Bytes ("Proxy error: " ++ e),
                                   timestamp := now }) := by
  intro fwd newId now elapsed method url reqHeaders transactions filters
  constructor
  · cases hf : (fwd { method := method, url := url, headers := reqHeaders, body := [], timestamp := now } now) with
    | ok resp =>
      refine ⟨{ id := newId,
                request := { method := method, url := url, headers := reqHeaders,
                             body := [], timestamp := now },
                response := some resp, duration := some elapsed, is_favorite := false,
                tags := if isFilteredCalc filters url then ["filtered"] else [] },
              resp, ?_, rfl⟩
      unfold handleRequestWith
      dsimp only
      rw [hf]
    | error e =>
      refine ⟨{ id := newId,
                request := { method := method, url := url, headers := reqHeaders,
                             body := [], timestamp := now },
                response := some { status := 502, headers := [],
                                   body := utf8Bytes ("Proxy error: " ++ e),
                                   timestamp := now },
                duration := some elapsed, is_favorite := false,
                tags := if isFilteredCalc filters url then ["filtered"] else [] },
              { status := 502, headers := [],
                body := utf8Bytes ("Proxy error: " ++ e), timestamp := now }, ?_, rfl⟩
      unfold handleRequestWith
      dsimp only
      rw [hf]
  · intro e he
    refine ⟨{ id := newId,
              request := { method := method, url := url, headers := reqHeaders,
                           body := [], timestamp := now },
              response := some { status := 502, headers := [],
                                 body := utf8Bytes ("Proxy error: " ++ e),
                                 timestamp := now },
              duration := some elapsed, is_favorite := false,
              tags := if isFilteredCalc filters url then ["filtered"] else [] },
            ?_, rfl⟩
    unfold handleRequestWith
    dsimp only
    rw [he]
    rfl

/-- Witness for C5 with a forwarding function that fails: the 502 gateway
response is recorded and returned at a concrete input. -/
theorem C5_one_transaction_even_on_error_witness :
    ∃ tx,
      handleRequestWith (fun _ _ => .error "boom") "id0" ⟨"t0"⟩ 7 "GET" "http://u"
          [] [] []
        = ([] ++ [tx],
           { status := 502, headers := [],
             bodyBytes := utf8Bytes ("Proxy error: " ++ "boom") })
      ∧ tx.response = some { status := 502, headers := [],
                             body := utf8Bytes ("Proxy error: " ++ "boom"),
                             timestamp := ⟨"t0"⟩ } :=
  (C5_one_transaction_even_on_error (fun _ _ => .error "boom") "id0" ⟨"t0"⟩ 7 "GET"
    "http://u" [] [] []).2 "boom" rfl

/-- Claim C9: forward_request is total — for every request it returns ok
with the fully determined synthesized response, so the gateway-error
branch of handle_request is unreachable — and the status of every recorded
response is exactly the method mapping GET 200, POST 201, PUT 200,
DELETE 204, any other method 200. -/
theorem C9_forward_total :
    (∀ (request : HttpRequest) (now : Timestamp),
      forward_request request now
        = .ok { status := statusForMethod request.method,
                headers := [("Content-Type", "application/json"),
                            ("X-Proxy-By", "PacketMind AI")],
                body := utf8Bytes (forwardBody request now), timestamp := now })
    ∧ statusForMethod "GET" = 200 ∧ statusForMethod "POST" = 201
    ∧ statusForMethod "PUT" = 200 ∧ statusForMethod "DELETE" = 204
    ∧ (∀ m : String, m ∉ (["GET", "POST", "PUT", "DELETE"] : List String) →
        statusForMethod m = 200)
    ∧ (∀ (newId : String) (now : Timestamp) (elapsed : Nat) (method url : String)
        (reqHeaders : List (String × String)) (transactions : List HttpTransaction)
        (filters : List String),
        ∃ tx,
          (handle_request newId now elapsed method url reqHeaders transactions
              filters).1 = transactions ++ [tx]
          ∧ tx.response.map HttpResponse.status = some (statusForMethod method)) := by
  refine ⟨fun _ _ => rfl, rfl, rfl, rfl, rfl, ?_, ?_⟩
  · intro m hm
    simp only [List.mem_cons, List.not_mem_nil, or_false, not_or] at hm
    unfold statusForMethod
    rw [if_neg hm.1, if_neg hm.2.1, if_neg hm.2.2.1, if_neg hm.2.2.2]
  · intro newId now elapsed method url reqHeaders transactions filters
    exact ⟨_, rfl, rfl⟩

/-- Witness for C9 at the concrete method PATCH, outside the four mapped
methods. -/
theorem C9_forward_total_witness : statusForMethod "PATCH" = 200 :=
  C9_forward_total.2.2.2.2.2.1 "PATCH" (by decide)

end PacketMind
